import Mathlib

/-!
Shallow embedding of the boxtop baseball core: the missing-data-aware
statistics aggregator (SQLA/bp_splits_db.py), the cross-consistency
validator (bp_cross_check.py), and the numeric-field parsing used by the
ingestion main loops.  Machine integers are modelled as Int, Python dicts
keyed by a fixed set of stat names as structures with one cell per name,
and a Python exception (KeyError, ValueError) as the error branch of
Except / Option.  The sentinel -1 denotes a statistic that was not
recorded for a game.
-/

/-- The MISSING sentinel: -1 denotes a statistic not recorded for a game. -/
def MISSING : Int := -1

/-! ## Statistics aggregator (SQLA/bp_splits_db.py)

For each stat name the aggregator keeps a running sum (m_batting_stats)
and an occurrence counter (m_batting_stats_counters).  We bundle the two
dict entries for one name into a StatCell. -/

structure StatCell where
  sum : Int
  occ : Nat
deriving Repr, DecidableEq

/-- Cleared cell: clear_batting_stats / clear_batting_stats_counters set 0. -/
def StatCell.init : StatCell := ⟨0, 0⟩

/-- update_batting_stat(stat_name, stat_as_integer): if the value is >= 0,
add it to the sum for that name and bump the occurrence counter; a negative
value (the -1 MISSING sentinel) is dropped on the floor. -/
def update_batting_stat (cell : StatCell) (stat_as_integer : Int) : StatCell :=
  if 0 ≤ stat_as_integer then
    { sum := cell.sum + stat_as_integer, occ := cell.occ + 1 }
  else
    cell

/-- update_pitching_stat has exactly the same body as update_batting_stat. -/
def update_pitching_stat (cell : StatCell) (stat_as_integer : Int) : StatCell :=
  if 0 ≤ stat_as_integer then
    { sum := cell.sum + stat_as_integer, occ := cell.occ + 1 }
  else
    cell

/-- check_stat_completeness(counters, stats_array): every listed counter
must equal the games counter, else the stat set is incomplete. -/
def check_stat_completeness (occs : List Nat) (games : Nat) : Bool :=
  occs.all (fun c => c == games)

/-- Folding one stat cell over the per-game values of a single stat name. -/
def run_stat_window (vs : List Int) (c : StatCell) : StatCell :=
  vs.foldl update_batting_stat c

/-- A per-game batting line as consumed by the per-player aggregation loop.
Field names follow the BattingStats columns read by the loop; the record
field named int in the source is spelled interference here. -/
structure BattingRecord where
  ab : Int
  runs : Int
  hits : Int
  doubles : Int
  triples : Int
  hr : Int
  rbi : Int
  sh : Int
  sf : Int
  hbp : Int
  bb : Int
  ibb : Int
  strikeouts : Int
  sb : Int
  cs : Int
  gidp : Int
  interference : Int
deriving Repr, DecidableEq

/-- One cell per batting stat name touched by the aggregation loop,
including the games pseudo-stat. -/
structure BattingAgg where
  games : StatCell
  ab : StatCell
  runs : StatCell
  hits : StatCell
  doubles : StatCell
  triples : StatCell
  hr : StatCell
  rbi : StatCell
  sh : StatCell
  sf : StatCell
  hbp : StatCell
  bb : StatCell
  ibb : StatCell
  strikeouts : StatCell
  sb : StatCell
  cs : StatCell
  gidp : StatCell
  interference : StatCell
deriving Repr, DecidableEq

/-- clear_batting_stats() plus clear_batting_stats_counters(): all zero. -/
def clear_batting_stats : BattingAgg :=
  ⟨.init, .init, .init, .init, .init, .init, .init, .init, .init, .init,
   .init, .init, .init, .init, .init, .init, .init, .init⟩

/-- The per-game update sequence of the batting aggregation loop:
update_batting_stat("games",1) followed by one update per stat column.
The calls touch pairwise distinct dict keys, so they are recorded as
independent per-field cell updates. -/
def process_batting_game (a : BattingAgg) (r : BattingRecord) : BattingAgg :=
  { games := update_batting_stat a.games 1,
    ab := update_batting_stat a.ab r.ab,
    runs := update_batting_stat a.runs r.runs,
    hits := update_batting_stat a.hits r.hits,
    doubles := update_batting_stat a.doubles r.doubles,
    triples := update_batting_stat a.triples r.triples,
    hr := update_batting_stat a.hr r.hr,
    rbi := update_batting_stat a.rbi r.rbi,
    sh := update_batting_stat a.sh r.sh,
    sf := update_batting_stat a.sf r.sf,
    hbp := update_batting_stat a.hbp r.hbp,
    bb := update_batting_stat a.bb r.bb,
    ibb := update_batting_stat a.ibb r.ibb,
    strikeouts := update_batting_stat a.strikeouts r.strikeouts,
    sb := update_batting_stat a.sb r.sb,
    cs := update_batting_stat a.cs r.cs,
    gidp := update_batting_stat a.gidp r.gidp,
    interference := update_batting_stat a.interference r.interference }

/-- The whole batting aggregation window for one player. -/
def aggregate_batting (rs : List BattingRecord) : BattingAgg :=
  rs.foldl process_batting_game clear_batting_stats

/-- The (aggregator cell, record column) pairs of the batting loop. -/
def battingPairs : List ((BattingAgg → StatCell) × (BattingRecord → Int)) :=
  [(BattingAgg.ab, BattingRecord.ab),
   (BattingAgg.runs, BattingRecord.runs),
   (BattingAgg.hits, BattingRecord.hits),
   (BattingAgg.doubles, BattingRecord.doubles),
   (BattingAgg.triples, BattingRecord.triples),
   (BattingAgg.hr, BattingRecord.hr),
   (BattingAgg.rbi, BattingRecord.rbi),
   (BattingAgg.sh, BattingRecord.sh),
   (BattingAgg.sf, BattingRecord.sf),
   (BattingAgg.hbp, BattingRecord.hbp),
   (BattingAgg.bb, BattingRecord.bb),
   (BattingAgg.ibb, BattingRecord.ibb),
   (BattingAgg.strikeouts, BattingRecord.strikeouts),
   (BattingAgg.sb, BattingRecord.sb),
   (BattingAgg.cs, BattingRecord.cs),
   (BattingAgg.gidp, BattingRecord.gidp),
   (BattingAgg.interference, BattingRecord.interference)]

/-- A per-game pitching line as consumed by the per-player aggregation loop. -/
structure PitchingRecord where
  starting_pitcher : Bool
  winning_pitcher : Bool
  losing_pitcher : Bool
  outs : Int
  bfp : Int
  hits : Int
  hr : Int
  runs : Int
  earned_runs : Int
  walks : Int
  intentional_walks : Int
  strikeouts : Int
  hbp : Int
  wp : Int
  balk : Int
deriving Repr, DecidableEq

/-- One cell per pitching stat name touched by the aggregation loop. -/
structure PitchingAgg where
  games : StatCell
  games_started : StatCell
  games_won : StatCell
  games_lost : StatCell
  outs : StatCell
  bfp : StatCell
  hits : StatCell
  hr : StatCell
  runs : StatCell
  earned_runs : StatCell
  walks : StatCell
  intentional_walks : StatCell
  strikeouts : StatCell
  hbp : StatCell
  wp : StatCell
  balk : StatCell
deriving Repr, DecidableEq

/-- clear_pitching_stats() plus clear_pitching_stats_counters(): all zero. -/
def clear_pitching_stats : PitchingAgg :=
  ⟨.init, .init, .init, .init, .init, .init, .init, .init,
   .init, .init, .init, .init, .init, .init, .init, .init⟩

/-- The per-game update sequence of the pitching aggregation loop:
update_pitching_stat("games",1), conditional updates for games_started,
games_won and games_lost driven by the record flags, then one update per
counting-stat column. -/
def process_pitching_game (a : PitchingAgg) (r : PitchingRecord) : PitchingAgg :=
  { games := update_pitching_stat a.games 1,
    games_started :=
      if r.starting_pitcher then update_pitching_stat a.games_started 1
      else a.games_started,
    games_won :=
      if r.winning_pitcher then update_pitching_stat a.games_won 1
      else a.games_won,
    games_lost :=
      if r.losing_pitcher then update_pitching_stat a.games_lost 1
      else a.games_lost,
    outs := update_pitching_stat a.outs r.outs,
    bfp := update_pitching_stat a.bfp r.bfp,
    hits := update_pitching_stat a.hits r.hits,
    hr := update_pitching_stat a.hr r.hr,
    runs := update_pitching_stat a.runs r.runs,
    earned_runs := update_pitching_stat a.earned_runs r.earned_runs,
    walks := update_pitching_stat a.walks r.walks,
    intentional_walks := update_pitching_stat a.intentional_walks r.intentional_walks,
    strikeouts := update_pitching_stat a.strikeouts r.strikeouts,
    hbp := update_pitching_stat a.hbp r.hbp,
    wp := update_pitching_stat a.wp r.wp,
    balk := update_pitching_stat a.balk r.balk }

/-- The whole pitching aggregation window for one player. -/
def aggregate_pitching (rs : List PitchingRecord) : PitchingAgg :=
  rs.foldl process_pitching_game clear_pitching_stats

/-- The (aggregator cell, record column) pairs of the pitching loop that
update unconditionally with the column value. -/
def pitchingPairs : List ((PitchingAgg → StatCell) × (PitchingRecord → Int)) :=
  [(PitchingAgg.outs, PitchingRecord.outs),
   (PitchingAgg.bfp, PitchingRecord.bfp),
   (PitchingAgg.hits, PitchingRecord.hits),
   (PitchingAgg.hr, PitchingRecord.hr),
   (PitchingAgg.runs, PitchingRecord.runs),
   (PitchingAgg.earned_runs, PitchingRecord.earned_runs),
   (PitchingAgg.walks, PitchingRecord.walks),
   (PitchingAgg.intentional_walks, PitchingRecord.intentional_walks),
   (PitchingAgg.strikeouts, PitchingRecord.strikeouts),
   (PitchingAgg.hbp, PitchingRecord.hbp),
   (PitchingAgg.wp, PitchingRecord.wp),
   (PitchingAgg.balk, PitchingRecord.balk)]

/-- Componentwise order on stat cells, used to state monotonicity. -/
def cell_le (c d : StatCell) : Prop := c.sum ≤ d.sum ∧ c.occ ≤ d.occ

/-! ## Derived (ratio) statistics of the aggregator

get_pct_as_string computes divisor / dividend as a float and then formats
it; the numeric core is modelled over the rationals (the float values at
the magnitudes involved are exact for the division-by-zero behaviour this
development is about), with the divide-by-zero guard of the source. -/

/-- The numeric core of get_pct_as_string: guard against a zero dividend
(denominator) by returning the literal 0, else divide. -/
def get_pct (divisor_as_integer dividend_as_integer : ℚ) : ℚ :=
  if dividend_as_integer = 0 then 0
  else divisor_as_integer / dividend_as_integer

/-- get_ip_as_float: outs divided by 3 as a true fraction. -/
def get_ip_as_float (outs_as_integer : Int) : ℚ := (outs_as_integer : ℚ) / 3

/-- The sf_adjusted value of the OBP branch: the summed sacrifice flies
when the sf counter matches the games counter, else the literal 0. -/
def sf_adjusted (a : BattingAgg) : Int :=
  if a.sf.occ ≠ a.games.occ then 0 else a.sf.sum

/-- The OBP branch of the batting output loop: computed only when ab,
hits, bb and hbp are all complete; the result is the (numerator,
denominator) pair handed to get_pct_as_string. -/
def calc_OBP (a : BattingAgg) : Option (Int × Int) :=
  if check_stat_completeness [a.ab.occ, a.hits.occ, a.bb.occ, a.hbp.occ] a.games.occ then
    some (a.hits.sum + a.bb.sum + a.hbp.sum,
          a.ab.sum + a.hits.sum + a.bb.sum + a.hbp.sum + sf_adjusted a)
  else
    none

/-- The BA branch: hits / ab, gated on completeness of hits and ab. -/
def calc_BA (a : BattingAgg) : Option ℚ :=
  if check_stat_completeness [a.hits.occ, a.ab.occ] a.games.occ then
    some (get_pct (a.hits.sum : ℚ) (a.ab.sum : ℚ))
  else
    none

/-- The SLG branch: total bases / ab, gated on completeness. -/
def calc_SLG (a : BattingAgg) : Option ℚ :=
  if check_stat_completeness
      [a.ab.occ, a.hits.occ, a.doubles.occ, a.triples.occ, a.hr.occ] a.games.occ then
    some (get_pct
      ((a.hits.sum + a.doubles.sum + a.triples.sum * 2 + a.hr.sum * 3 : Int) : ℚ)
      (a.ab.sum : ℚ))
  else
    none

/-- The OBP value after the get_pct division. -/
def calc_OBP_value (a : BattingAgg) : Option ℚ :=
  (calc_OBP a).map (fun p => get_pct (p.1 : ℚ) (p.2 : ℚ))

/-- The WLPCT branch: wins / (wins + losses), computed unconditionally
(no completeness gate in the source). -/
def calc_WLPCT (a : PitchingAgg) : ℚ :=
  get_pct (a.games_won.sum : ℚ) ((a.games_won.sum + a.games_lost.sum : Int) : ℚ)

/-- The ERA branch: 9 * earned runs / innings pitched. -/
def calc_ERA (a : PitchingAgg) : Option ℚ :=
  if check_stat_completeness [a.outs.occ, a.earned_runs.occ] a.games.occ then
    some (get_pct ((9 * a.earned_runs.sum : Int) : ℚ) (get_ip_as_float a.outs.sum))
  else
    none

/-- The WHIP branch: (walks + hits) / innings pitched. -/
def calc_WHIP (a : PitchingAgg) : Option ℚ :=
  if check_stat_completeness [a.outs.occ, a.walks.occ, a.hits.occ] a.games.occ then
    some (get_pct ((a.walks.sum + a.hits.sum : Int) : ℚ) (get_ip_as_float a.outs.sum))
  else
    none

/-- The H9 branch: 9 * hits / innings pitched, gated on hits only. -/
def calc_H9 (a : PitchingAgg) : Option ℚ :=
  if check_stat_completeness [a.hits.occ] a.games.occ then
    some (get_pct ((9 * a.hits.sum : Int) : ℚ) (get_ip_as_float a.outs.sum))
  else
    none

/-- The HR9 branch: 9 * hr / innings pitched, gated on hr only. -/
def calc_HR9 (a : PitchingAgg) : Option ℚ :=
  if check_stat_completeness [a.hr.occ] a.games.occ then
    some (get_pct ((9 * a.hr.sum : Int) : ℚ) (get_ip_as_float a.outs.sum))
  else
    none

/-- The BB9 branch: 9 * walks / innings pitched, gated on walks only. -/
def calc_BB9 (a : PitchingAgg) : Option ℚ :=
  if check_stat_completeness [a.walks.occ] a.games.occ then
    some (get_pct ((9 * a.walks.sum : Int) : ℚ) (get_ip_as_float a.outs.sum))
  else
    none

/-- The SO9 branch: 9 * strikeouts / innings pitched, gated on strikeouts. -/
def calc_SO9 (a : PitchingAgg) : Option ℚ :=
  if check_stat_completeness [a.strikeouts.occ] a.games.occ then
    some (get_pct ((9 * a.strikeouts.sum : Int) : ℚ) (get_ip_as_float a.outs.sum))
  else
    none

/-- The SO/W branch: strikeouts / walks, gated on both. -/
def calc_SOW (a : PitchingAgg) : Option ℚ :=
  if check_stat_completeness [a.strikeouts.occ, a.walks.occ] a.games.occ then
    some (get_pct (a.strikeouts.sum : ℚ) (a.walks.sum : ℚ))
  else
    none

/-! ## Cross-consistency validator (bp_cross_check.py) -/

/-- update_stats_list_conditionally: a -1 contribution sets the running
per-side total to -1 (unknown); any other contribution is added to the
current total, whatever it is. -/
def update_stats_list_conditionally (total : Int) (number : Int) : Int :=
  if number = -1 then -1 else total + number

/-- The same body is used for the pitching and teamstat totals. -/
def update_pitching_stats_list_conditionally (total : Int) (number : Int) : Int :=
  if number = -1 then -1 else total + number

/-- Per-side summed player total for one category over the player lines of
a game, in record order, starting from the cleared value 0. -/
def sum_player_stats (vs : List Int) : Int :=
  vs.foldl update_stats_list_conditionally 0

/-- The team-total comparison of check_stats: a mismatch diagnostic is
printed when the team total differs from the player sum, unless the
player sum is -1 (stat not available for the players). -/
def team_total_mismatch_emitted (team_total player_sum : Int) : Bool :=
  if team_total ≠ player_sum then
    decide (player_sum ≠ -1)
  else
    false

/-- The linescore-length check of check_stats: the flag starts false, is
set when the inning counts agree, or when the road count is one more than
the home count while the home team scored more runs. -/
def linescore_length_ok (road_innings home_innings road_runs home_runs : Int) : Bool :=
  if road_innings = home_innings then true
  else if road_innings = home_innings + 1 ∧ home_runs > road_runs then true
  else false

/-- A linescore-length mismatch is printed exactly when the flag stayed false. -/
def linescore_length_mismatch_emitted
    (road_innings home_innings road_runs home_runs : Int) : Bool :=
  !(linescore_length_ok road_innings home_innings road_runs home_runs)

/-- The innings-versus-outs check of check_stats for one batting side.
outs is the opposing pitchers summed outs, putouts the opposing teamstat
putouts.  Python computes int(outs / 3) and int(outs / 3 + 1) with float
true division and truncation toward zero; when 3 divides outs the first
is the exact quotient, and the second equals the truncated quotient of
(outs + 3) by 3, written here with Int.tdiv. -/
def innings_mismatch_emitted (innings outs putouts : Int) : Bool :=
  if outs % 3 = 0 then
    if innings = outs / 3 then false
    else decide (putouts ≠ outs)
  else
    decide (innings ≠ (outs + 3).tdiv 3)

/-! ## Duplicate-appearance checks (end of check_stats)

The per-game id dictionaries (Python insertion-ordered dicts mapping a
player id to its occurrence count) are modelled as association lists.  A
Python KeyError on a missing key is modelled as the error branch. -/

/-- Dictionary read d[pid] on an association list: some count, or none
when the key is absent (Python raises KeyError, since the per-side inner
dictionaries are created as defaultdict() with no default factory). -/
def lookup_count (d : List (String × Nat)) (pid : String) : Option Nat :=
  (d.find? (fun p => p.1 == pid)).map (fun p => p.2)

/-- Diagnostics printed by the duplicate checks, one constructor per
print statement, carrying the id and the count that the source prints. -/
inductive DupDiag where
  | batterDup (pid : String) (n : Nat)
  | pitcherDup (pid : String) (n : Nat)
  | phDup (pid : String) (n : Nat)
  | phAlsoPr (pid : String) (n : Nat)
  | prDup (pid : String) (n : Nat)
deriving Repr, DecidableEq

/-- The pinch-hitter loop: a count above 1 reports a duplicate, and any
pinch hitter also present in the pinch-runner dictionary reports a
conflict (printed with the pinch-hitter count). -/
def ph_checks (phs prs : List (String × Nat)) : List DupDiag :=
  phs.foldl
    (fun acc p =>
      acc ++ (if p.2 > 1 then [DupDiag.phDup p.1 p.2] else [])
          ++ (if (lookup_count prs p.1).isSome then [DupDiag.phAlsoPr p.1 p.2] else []))
    []

/-- The pinch-runner loop of the source: for a count above 1 it prints the
count read from list_of_pitchers (not from list_of_pinch_runners); when
the id is not a pitcher the dictionary read raises KeyError. -/
def pr_checks : List (String × Nat) → List (String × Nat) → Except String (List DupDiag)
  | [], _ => Except.ok []
  | p :: rest, pitchers =>
    if p.2 > 1 then
      match lookup_count pitchers p.1 with
      | none => Except.error ("KeyError: " ++ p.1)
      | some n =>
        match pr_checks rest pitchers with
        | Except.error e => Except.error e
        | Except.ok ds => Except.ok (DupDiag.prDup p.1 n :: ds)
    else pr_checks rest pitchers

/-- The four duplicate loops of check_stats for one side, in source order:
batting order, pitchers, pinch hitters (with the PH/PR conflict check),
pinch runners. -/
def check_duplicates (batters pitchers phs prs : List (String × Nat)) :
    Except String (List DupDiag) :=
  let d1 := (batters.filter (fun p => p.2 > 1)).map (fun p => DupDiag.batterDup p.1 p.2)
  let d2 := (pitchers.filter (fun p => p.2 > 1)).map (fun p => DupDiag.pitcherDup p.1 p.2)
  let d3 := ph_checks phs prs
  match pr_checks prs pitchers with
  | Except.error e => Except.error e
  | Except.ok d4 => Except.ok (d1 ++ d2 ++ d3 ++ d4)

/-! ## Per-game mutable state of bp_cross_check.py and clear_stats -/

/-- The nine batting/fielding categories of stats_list for one side. -/
structure BattingSideStats where
  ab : Int
  runs : Int
  hits : Int
  rbi : Int
  putouts : Int
  assists : Int
  errors : Int
  walks : Int
  strikeouts : Int
deriving Repr, DecidableEq

def BattingSideStats.cleared : BattingSideStats := ⟨0, 0, 0, 0, 0, 0, 0, 0, 0⟩

/-- The five pitching categories of pitching_stats_list for one side. -/
structure PitchingSideStats where
  outs : Int
  runs : Int
  hits : Int
  walks : Int
  strikeouts : Int
deriving Repr, DecidableEq

def PitchingSideStats.cleared : PitchingSideStats := ⟨0, 0, 0, 0, 0⟩

/-- The six teamstat categories of team_stats_list for one side. -/
structure TeamSideStats where
  ab : Int
  runs : Int
  hits : Int
  putouts : Int
  assists : Int
  errors : Int
deriving Repr, DecidableEq

def TeamSideStats.cleared : TeamSideStats := ⟨0, 0, 0, 0, 0, 0⟩

/-- The module-level mutable state of bp_cross_check.py that carries the
current game, with road/home dictionary entries flattened into fields. -/
structure CrossCheckState where
  s_team_names_road : String
  s_team_names_home : String
  s_date_of_game : String
  s_game_number_this_date : String
  s_usedh : String
  batting_order_list_road : List (Option Nat)
  batting_order_list_home : List (Option Nat)
  batting_order_numbers_road : List Int
  batting_order_numbers_home : List Int
  players_in_batting_order_road : List (String × Nat)
  players_in_batting_order_home : List (String × Nat)
  list_of_pitchers_road : List (String × Nat)
  list_of_pitchers_home : List (String × Nat)
  list_of_pinch_hitters_road : List (String × Nat)
  list_of_pinch_hitters_home : List (String × Nat)
  list_of_pinch_runners_road : List (String × Nat)
  list_of_pinch_runners_home : List (String × Nat)
  pos_list_road : List (Option Nat)
  pos_list_home : List (Option Nat)
  stats_list_road : BattingSideStats
  stats_list_home : BattingSideStats
  pitching_stats_list_road : PitchingSideStats
  pitching_stats_list_home : PitchingSideStats
  team_stats_list_road : TeamSideStats
  team_stats_list_home : TeamSideStats
  linescore_total_road : Int
  linescore_total_home : Int
  linescore_innings_road : Int
  linescore_innings_home : Int
deriving Repr, DecidableEq

/-- clear_stats() as the source executes it.  Two deviations from a full
reset are preserved from the source: (1) the assignments to
s_date_of_game, s_game_number_this_date and s_usedh inside the function
have no global declaration, so Python binds fresh locals and the module
globals keep their values; (2) the linescore_innings reset assigns the
road entry twice and never assigns the home entry. -/
def clear_stats (s : CrossCheckState) : CrossCheckState :=
  { s with
    s_team_names_road := "",
    s_team_names_home := "",
    batting_order_list_road := List.replicate 10 none,
    batting_order_list_home := List.replicate 10 none,
    batting_order_numbers_road := [],
    batting_order_numbers_home := [],
    players_in_batting_order_road := [],
    players_in_batting_order_home := [],
    list_of_pitchers_road := [],
    list_of_pitchers_home := [],
    list_of_pinch_hitters_road := [],
    list_of_pinch_hitters_home := [],
    list_of_pinch_runners_road := [],
    list_of_pinch_runners_home := [],
    pos_list_road := List.replicate 15 none,
    pos_list_home := List.replicate 15 none,
    stats_list_road := BattingSideStats.cleared,
    stats_list_home := BattingSideStats.cleared,
    pitching_stats_list_road := PitchingSideStats.cleared,
    pitching_stats_list_home := PitchingSideStats.cleared,
    team_stats_list_road := TeamSideStats.cleared,
    team_stats_list_home := TeamSideStats.cleared,
    linescore_total_road := 0,
    linescore_total_home := 0,
    linescore_innings_road := 0 }

/-- The fully reset per-game state the validator is documented to start
each game from: every per-game accumulator at its initial value. -/
def fresh_game_state : CrossCheckState :=
  { s_team_names_road := "",
    s_team_names_home := "",
    s_date_of_game := "",
    s_game_number_this_date := "",
    s_usedh := "false",
    batting_order_list_road := List.replicate 10 none,
    batting_order_list_home := List.replicate 10 none,
    batting_order_numbers_road := [],
    batting_order_numbers_home := [],
    players_in_batting_order_road := [],
    players_in_batting_order_home := [],
    list_of_pitchers_road := [],
    list_of_pitchers_home := [],
    list_of_pinch_hitters_road := [],
    list_of_pinch_hitters_home := [],
    list_of_pinch_runners_road := [],
    list_of_pinch_runners_home := [],
    pos_list_road := List.replicate 15 none,
    pos_list_home := List.replicate 15 none,
    stats_list_road := BattingSideStats.cleared,
    stats_list_home := BattingSideStats.cleared,
    pitching_stats_list_road := PitchingSideStats.cleared,
    pitching_stats_list_home := PitchingSideStats.cleared,
    team_stats_list_road := TeamSideStats.cleared,
    team_stats_list_home := TeamSideStats.cleared,
    linescore_total_road := 0,
    linescore_total_home := 0,
    linescore_innings_road := 0,
    linescore_innings_home := 0 }

/-! ## Numeric-field parsing of the ingestion main loops

Every numeric field is read with the Python builtin int(): optional
surrounding whitespace, an optional sign, then decimal digits.  A string
outside that shape raises ValueError, modelled as none; the main loops of
bp_cross_check.py and SQLA/bp_create_db.py wrap none of these calls in a
try block, so none corresponds to an uncaught exception aborting the run. -/

def digits_to_nat (cs : List Char) : Nat :=
  cs.foldl (fun a c => a * 10 + (c.toNat - 48)) 0

/-- Characters of a string with surrounding whitespace stripped, as the
Python builtin int() strips it before parsing. -/
def strip_whitespace (s : String) : List Char :=
  ((s.toList.dropWhile Char.isWhitespace).reverse.dropWhile Char.isWhitespace).reverse

/-- The Python builtin int() applied to a field string (digit-grouping
underscores are omitted: the record format never produces them). -/
def pyInt (s : String) : Option Int :=
  match strip_whitespace s with
  | [] => none
  | c :: rest =>
    if c = '-' then
      if rest ≠ [] ∧ rest.all Char.isDigit then some (-(digits_to_nat rest : Int))
      else none
    else if c = '+' then
      if rest ≠ [] ∧ rest.all Char.isDigit then some ((digits_to_nat rest : Int))
      else none
    else
      if (c :: rest).all Char.isDigit then some ((digits_to_nat (c :: rest) : Int))
      else none

/-! ## Supporting lemmas -/

theorem update_pitching_eq_batting (c : StatCell) (v : Int) :
    update_pitching_stat c v = update_batting_stat c v := rfl

theorem occ_update_batting_stat (c : StatCell) (v : Int) :
    (update_batting_stat c v).occ = c.occ + (if 0 ≤ v then 1 else 0) := by
  unfold update_batting_stat
  split <;> simp

theorem sum_update_batting_stat (c : StatCell) (v : Int) :
    (update_batting_stat c v).sum = c.sum + (if 0 ≤ v then v else 0) := by
  unfold update_batting_stat
  split <;> simp

theorem occ_run_stat_window (vs : List Int) (c : StatCell) :
    (run_stat_window vs c).occ = c.occ + vs.countP (fun v => 0 ≤ v) := by
  induction vs generalizing c with
  | nil => simp [run_stat_window, List.countP_nil]
  | cons v rest ih =>
    show (run_stat_window rest (update_batting_stat c v)).occ = _
    rw [ih, occ_update_batting_stat, List.countP_cons]
    by_cases h : (0:Int) ≤ v <;> simp [h] <;> omega

theorem sum_run_stat_window (vs : List Int) (c : StatCell) :
    (run_stat_window vs c).sum = c.sum + ((vs.filter (fun v => 0 ≤ v)).sum) := by
  induction vs generalizing c with
  | nil => simp [run_stat_window]
  | cons v rest ih =>
    show (run_stat_window rest (update_batting_stat c v)).sum = _
    rw [ih, sum_update_batting_stat, List.filter_cons]
    by_cases h : (0:Int) ≤ v <;> simp [h] <;> ring

theorem battingPairs_step :
    ∀ p ∈ battingPairs, ∀ (a : BattingAgg) (r : BattingRecord),
      p.1 (process_batting_game a r) = update_batting_stat (p.1 a) (p.2 r) := by
  intro p hp
  simp only [battingPairs, List.mem_cons, List.not_mem_nil, or_false] at hp
  rcases hp with rfl | rfl | rfl | rfl | rfl | rfl | rfl | rfl | rfl | rfl |
    rfl | rfl | rfl | rfl | rfl | rfl | rfl <;> intro a r <;> rfl

theorem foldl_cell_proj (acc : BattingAgg → StatCell) (f : BattingRecord → Int)
    (h : ∀ a r, acc (process_batting_game a r) = update_batting_stat (acc a) (f r)) :
    ∀ (rs : List BattingRecord) (a : BattingAgg),
      acc (rs.foldl process_batting_game a) = run_stat_window (rs.map f) (acc a) := by
  intro rs
  induction rs with
  | nil => intro a; rfl
  | cons r rest ih =>
    intro a
    show acc (rest.foldl process_batting_game (process_batting_game a r)) = _
    rw [ih (process_batting_game a r), h]
    rfl

theorem games_foldl (rs : List BattingRecord) (a : BattingAgg) :
    (rs.foldl process_batting_game a).games =
      run_stat_window (rs.map (fun _ => (1:Int))) a.games :=
  foldl_cell_proj BattingAgg.games (fun _ => (1:Int)) (fun _ _ => rfl) rs a

theorem games_occ_aggregate (rs : List BattingRecord) :
    (aggregate_batting rs).games.occ = rs.length := by
  unfold aggregate_batting
  rw [games_foldl, occ_run_stat_window]
  have hall : ∀ a ∈ rs.map (fun _ => (1:Int)), decide ((0:Int) ≤ a) = true := by
    intro a ha
    rcases List.mem_map.mp ha with ⟨r, hr, rfl⟩
    decide
  have h : (rs.map (fun _ => (1:Int))).countP (fun v => (0:Int) ≤ v) =
      (rs.map (fun _ => (1:Int))).length := List.countP_eq_length.mpr hall
  have h0 : clear_batting_stats.games.occ = 0 := rfl
  rw [h0, Nat.zero_add, h, List.length_map]

theorem pitchingPairs_step :
    ∀ p ∈ pitchingPairs, ∀ (a : PitchingAgg) (r : PitchingRecord),
      p.1 (process_pitching_game a r) = update_batting_stat (p.1 a) (p.2 r) := by
  intro p hp
  simp only [pitchingPairs, List.mem_cons, List.not_mem_nil, or_false] at hp
  rcases hp with rfl | rfl | rfl | rfl | rfl | rfl | rfl | rfl | rfl | rfl |
    rfl | rfl <;> intro a r <;> rfl

theorem battingPairs_clear :
    ∀ p ∈ battingPairs, p.1 clear_batting_stats = StatCell.init := by
  intro p hp
  simp only [battingPairs, List.mem_cons, List.not_mem_nil, or_false] at hp
  rcases hp with rfl | rfl | rfl | rfl | rfl | rfl | rfl | rfl | rfl | rfl |
    rfl | rfl | rfl | rfl | rfl | rfl | rfl <;> rfl

theorem pitchingPairs_clear :
    ∀ p ∈ pitchingPairs, p.1 clear_pitching_stats = StatCell.init := by
  intro p hp
  simp only [pitchingPairs, List.mem_cons, List.not_mem_nil, or_false] at hp
  rcases hp with rfl | rfl | rfl | rfl | rfl | rfl | rfl | rfl | rfl | rfl |
    rfl | rfl <;> rfl

theorem pitching_foldl_cell_proj (acc : PitchingAgg → StatCell) (f : PitchingRecord → Int)
    (h : ∀ a r, acc (process_pitching_game a r) = update_batting_stat (acc a) (f r)) :
    ∀ (rs : List PitchingRecord) (a : PitchingAgg),
      acc (rs.foldl process_pitching_game a) = run_stat_window (rs.map f) (acc a) := by
  intro rs
  induction rs with
  | nil => intro a; rfl
  | cons r rest ih =>
    intro a
    show acc (rest.foldl process_pitching_game (process_pitching_game a r)) = _
    rw [ih (process_pitching_game a r), h]
    rfl

theorem pitching_games_occ_aggregate (rs : List PitchingRecord) :
    (aggregate_pitching rs).games.occ = rs.length := by
  unfold aggregate_pitching
  rw [pitching_foldl_cell_proj PitchingAgg.games (fun _ => (1:Int)) (fun _ _ => rfl),
    occ_run_stat_window]
  have hall : ∀ a ∈ rs.map (fun _ => (1:Int)), decide ((0:Int) ≤ a) = true := by
    intro a ha
    rcases List.mem_map.mp ha with ⟨r, hr, rfl⟩
    decide
  have h : (rs.map (fun _ => (1:Int))).countP (fun v => (0:Int) ≤ v) =
      (rs.map (fun _ => (1:Int))).length := List.countP_eq_length.mpr hall
  have h0 : clear_pitching_stats.games.occ = 0 := rfl
  rw [h0, Nat.zero_add, h, List.length_map]

theorem cell_le_update (c : StatCell) (v : Int) :
    cell_le c (update_batting_stat c v) := by
  unfold cell_le update_batting_stat
  split
  case isTrue h => exact ⟨by simp; omega, by simp⟩
  case isFalse h => exact ⟨le_refl _, le_refl _⟩

theorem occ_le_games_fold {σ ρ : Type} (process : σ → ρ → σ)
    (games acc : σ → StatCell)
    (hg : ∀ a r, (games (process a r)).occ = (games a).occ + 1)
    (hs : ∀ a r, (acc (process a r)).occ ≤ (acc a).occ + 1) :
    ∀ (rs : List ρ) (a : σ), (acc a).occ ≤ (games a).occ →
      (acc (rs.foldl process a)).occ ≤ (games (rs.foldl process a)).occ := by
  intro rs
  induction rs with
  | nil => intro a h; exact h
  | cons r rest ih =>
    intro a h
    show (acc (rest.foldl process (process a r))).occ ≤ _
    apply ih
    rw [hg]
    calc (acc (process a r)).occ ≤ (acc a).occ + 1 := hs a r
      _ ≤ (games a).occ + 1 := by omega


theorem agg_field_occ (p : (BattingAgg → StatCell) × (BattingRecord → Int))
    (hp : p ∈ battingPairs) (rs : List BattingRecord) :
    (p.1 (aggregate_batting rs)).occ = rs.countP (fun r => 0 ≤ p.2 r) := by
  unfold aggregate_batting
  rw [foldl_cell_proj p.1 p.2 (battingPairs_step p hp) rs clear_batting_stats,
    battingPairs_clear p hp, occ_run_stat_window, List.countP_map]
  have h0 : StatCell.init.occ = 0 := rfl
  rw [h0, Nat.zero_add]
  rfl

theorem agg_field_sum (p : (BattingAgg → StatCell) × (BattingRecord → Int))
    (hp : p ∈ battingPairs) (rs : List BattingRecord) :
    (p.1 (aggregate_batting rs)).sum = ((rs.map p.2).filter (fun v => 0 ≤ v)).sum := by
  unfold aggregate_batting
  rw [foldl_cell_proj p.1 p.2 (battingPairs_step p hp) rs clear_batting_stats,
    battingPairs_clear p hp, sum_run_stat_window]
  have h0 : StatCell.init.sum = 0 := rfl
  rw [h0, Int.zero_add]

theorem pitching_agg_field_occ (p : (PitchingAgg → StatCell) × (PitchingRecord → Int))
    (hp : p ∈ pitchingPairs) (rs : List PitchingRecord) :
    (p.1 (aggregate_pitching rs)).occ = rs.countP (fun r => 0 ≤ p.2 r) := by
  unfold aggregate_pitching
  rw [pitching_foldl_cell_proj p.1 p.2 (pitchingPairs_step p hp) rs clear_pitching_stats,
    pitchingPairs_clear p hp, occ_run_stat_window, List.countP_map]
  have h0 : StatCell.init.occ = 0 := rfl
  rw [h0, Nat.zero_add]
  rfl

theorem update_batting_stat_missing (c : StatCell) (v : Int) (h : v = MISSING) :
    update_batting_stat c v = c := by
  subst h
  rfl

theorem countP_nonneg_eq_ne_missing (rs : List BattingRecord) (f : BattingRecord → Int)
    (hwf : ∀ r ∈ rs, f r = MISSING ∨ 0 ≤ f r) :
    rs.countP (fun r => 0 ≤ f r) = rs.countP (fun r => f r ≠ MISSING) := by
  apply List.countP_congr
  intro r hr
  simp only [decide_eq_true_eq, MISSING]
  have h := hwf r hr
  simp only [MISSING] at h
  omega

theorem sum_filter_nonneg_eq_ne_missing (vs : List Int)
    (hwf : ∀ v ∈ vs, v = MISSING ∨ 0 ≤ v) :
    (vs.filter (fun v => 0 ≤ v)) = (vs.filter (fun v => v ≠ MISSING)) := by
  apply List.filter_congr
  intro v hv
  rw [decide_eq_decide]
  have h := hwf v hv
  simp only [MISSING] at h ⊢
  omega

/-! ## Claim theorems -/

/-- C6: the linescore-length check passes (no mismatch diagnostic) if and
only if the road inning count equals the home inning count, or the road
inning count equals the home inning count plus one while the home side
reported more total runs than the road side; any other relationship
produces the linescore-length mismatch diagnostic. -/
theorem linescore_length_check_characterization
    (road_innings home_innings road_runs home_runs : Int) :
    linescore_length_mismatch_emitted road_innings home_innings road_runs home_runs
        = false ↔
      (road_innings = home_innings ∨
        (road_innings = home_innings + 1 ∧ home_runs > road_runs)) := by
  unfold linescore_length_mismatch_emitted linescore_length_ok
  by_cases h1 : road_innings = home_innings
  case pos => simp [h1]
  case neg =>
    by_cases h2 : road_innings = home_innings + 1 ∧ home_runs > road_runs
    case pos => simp [h1, h2]
    case neg => simp [h1, h2]

/-- C1 (code bug evaluated at the failing input): a player line carrying
the MISSING sentinel followed by a line carrying 5 leaves the running
per-side total at -1 + 5 = 4, not MISSING, so the comparison against the
team total 5 is not skipped and a mismatch diagnostic is emitted. -/
theorem missing_total_healed_by_later_addition :
    sum_player_stats [MISSING, 5] = 4 ∧
    team_total_mismatch_emitted 5 (sum_player_stats [MISSING, 5]) = true := by
  constructor
  case left => rfl
  case right => rfl

/-- C4 (code bug evaluated at a post-game state): clear_stats leaves the
home linescore inning count, the date, the game number and the DH flag at
their previous values, so the per-game state after sealing game one is
not the fully reset state. -/
theorem clear_stats_leaks_state :
    clear_stats { fresh_game_state with
        linescore_innings_road := 9,
        linescore_innings_home := 9,
        s_usedh := "true",
        s_date_of_game := "1938/05/01",
        s_game_number_this_date := "2" } ≠ fresh_game_state ∧
    (clear_stats { fresh_game_state with
        linescore_innings_road := 9,
        linescore_innings_home := 9,
        s_usedh := "true",
        s_date_of_game := "1938/05/01",
        s_game_number_this_date := "2" }).linescore_innings_home = 9 ∧
    (clear_stats { fresh_game_state with
        linescore_innings_road := 9,
        linescore_innings_home := 9,
        s_usedh := "true",
        s_date_of_game := "1938/05/01",
        s_game_number_this_date := "2" }).s_usedh = "true" ∧
    (clear_stats { fresh_game_state with
        linescore_innings_road := 9,
        linescore_innings_home := 9,
        s_usedh := "true",
        s_date_of_game := "1938/05/01",
        s_game_number_this_date := "2" }).s_date_of_game = "1938/05/01" ∧
    (clear_stats { fresh_game_state with
        linescore_innings_road := 9,
        linescore_innings_home := 9,
        s_usedh := "true",
        s_date_of_game := "1938/05/01",
        s_game_number_this_date := "2" }).linescore_innings_road = 0 ∧
    fresh_game_state.linescore_innings_home = 0 ∧
    fresh_game_state.s_usedh = "false" := by
  refine ⟨?_, rfl, rfl, rfl, rfl, rfl, rfl⟩
  intro h
  have h2 := congrArg CrossCheckState.linescore_innings_home h
  simp [clear_stats, fresh_game_state] at h2

/-- C7 (code bug evaluated at the failing input): a pinch runner listed
twice who is not a pitcher makes the duplicate check raise KeyError
(reading the count from list_of_pitchers); when the same id happens to be
a pitcher listed once, the diagnostic reports the pitcher count 1 instead
of the pinch-runner count 2. -/
theorem pr_duplicate_check_reads_pitcher_dictionary :
    check_duplicates [] [("jones", 1)] [] [("smith", 2)] =
      Except.error "KeyError: smith" ∧
    check_duplicates [] [("smith", 1)] [] [("smith", 2)] =
      Except.ok [DupDiag.prDup "smith" 1] := by
  constructor
  case left => rfl
  case right => rfl

/-- C3 (counterexample): integer-parsing of numeric fields can abort the
run, and a negative literal other than -1 is not converted to the MISSING
sentinel: int("x") raises ValueError (modelled as none), and int("-5")
returns -5, which is not MISSING. -/
theorem int_parse_not_total_counterexample :
    pyInt "x" = none ∧ pyInt "-5" = some (-5) ∧ (-5 : Int) ≠ MISSING := by
  refine ⟨by decide, by decide, by decide⟩

/-- C3 (amended): the literal -1 parses to the MISSING sentinel itself;
other well-formed integer literals (including other negative ones) parse
to their own value with no conversion; a non-parseable literal is a parse
failure, which the main loops leave uncaught, aborting the run. -/
theorem int_parse_amended :
    pyInt "-1" = some MISSING ∧ pyInt "-5" = some (-5) ∧
    pyInt "7" = some 7 ∧ pyInt "042" = some 42 ∧ pyInt "x" = none ∧
    pyInt "" = none := by
  refine ⟨by decide, by decide, by decide, by decide, by decide, by decide⟩

theorem check_stat_completeness_iff (occs : List Nat) (games : Nat) :
    check_stat_completeness occs games = true ↔ ∀ c ∈ occs, c = games := by
  unfold check_stat_completeness
  simp

theorem countP_nonneg_eq_length_iff (rs : List BattingRecord) (f : BattingRecord → Int)
    (hwf : ∀ r ∈ rs, f r = MISSING ∨ 0 ≤ f r) :
    rs.countP (fun r => 0 ≤ f r) = rs.length ↔ ∀ r ∈ rs, f r ≠ MISSING := by
  rw [countP_nonneg_eq_ne_missing rs f hwf, List.countP_eq_length]
  simp

/-- C5: for a sealed game and one batting side, with the opposing summed
outs at least -1 (a sum of StatValues can never drop below the sentinel):
when the summed outs leave remainder 1 or 2 modulo 3, an innings mismatch
is reported iff the linescore inning count differs from floor(outs/3)+1;
when the outs are an exact multiple of 3, a mismatch is reported iff the
inning count differs from outs/3 and the alternate check against the
opposing teamstat putouts also fails. -/
theorem innings_check_characterization (innings outs putouts : Int) (h : -1 ≤ outs) :
    ((outs % 3 = 1 ∨ outs % 3 = 2) →
      (innings_mismatch_emitted innings outs putouts = true ↔ innings ≠ outs / 3 + 1))
    ∧ (outs % 3 = 0 →
      (innings_mismatch_emitted innings outs putouts = true ↔
        (innings ≠ outs / 3 ∧ putouts ≠ outs))) := by
  constructor
  case left =>
    intro hmod
    have hne : ¬ outs % 3 = 0 := by omega
    unfold innings_mismatch_emitted
    rw [if_neg hne]
    have htd : (outs + 3).tdiv 3 = (outs + 3) / 3 :=
      Int.tdiv_eq_ediv (by omega) (by decide)
    have hdiv : (outs + 3) / 3 = outs / 3 + 1 := by omega
    rw [htd, hdiv]
    simp
  case right =>
    intro hmod
    unfold innings_mismatch_emitted
    rw [if_pos hmod]
    by_cases he : innings = outs / 3
    case pos => simp [he]
    case neg => simp [he]

/-- C5 witness: a completed game with 25 opposing outs (remainder 1). -/
theorem innings_check_characterization_witness :
    (-1 : Int) ≤ 25 ∧
    ((((25 : Int) % 3 = 1 ∨ (25 : Int) % 3 = 2) →
      (innings_mismatch_emitted 9 25 0 = true ↔ (9 : Int) ≠ 25 / 3 + 1))
    ∧ ((25 : Int) % 3 = 0 →
      (innings_mismatch_emitted 9 25 0 = true ↔
        ((9 : Int) ≠ 25 / 3 ∧ (0 : Int) ≠ 25)))) :=
  ⟨by decide, innings_check_characterization 9 25 0 (by decide)⟩

/-- C2: for any aggregation window and any batting counting stat, the
completeness flag is true iff the number of games with a non-MISSING
value equals the number of games in the window; with exactly one MISSING
game the flag is false and the reported sum is the total over the
remaining games. -/
theorem stat_completeness_characterization
    (rs : List BattingRecord)
    (p : (BattingAgg → StatCell) × (BattingRecord → Int))
    (hp : p ∈ battingPairs)
    (hwf : ∀ r ∈ rs, p.2 r = MISSING ∨ 0 ≤ p.2 r) :
    (check_stat_completeness [(p.1 (aggregate_batting rs)).occ]
        (aggregate_batting rs).games.occ = true ↔
      rs.countP (fun r => p.2 r ≠ MISSING) = rs.length)
    ∧ (rs.countP (fun r => p.2 r = MISSING) = 1 →
        check_stat_completeness [(p.1 (aggregate_batting rs)).occ]
          (aggregate_batting rs).games.occ = false
        ∧ (p.1 (aggregate_batting rs)).sum =
            ((rs.map p.2).filter (fun v => v ≠ MISSING)).sum) := by
  have hocc := agg_field_occ p hp rs
  have hgames := games_occ_aggregate rs
  have hcnt := countP_nonneg_eq_ne_missing rs p.2 hwf
  have hflag : check_stat_completeness [(p.1 (aggregate_batting rs)).occ]
      (aggregate_batting rs).games.occ = true ↔
      rs.countP (fun r => p.2 r ≠ MISSING) = rs.length := by
    rw [check_stat_completeness_iff]
    simp [hocc, hgames, hcnt]
  constructor
  case left => exact hflag
  case right =>
    intro hone
    have hsplit := List.length_eq_countP_add_countP (fun r => decide (p.2 r = MISSING)) rs
    constructor
    case left =>
      have hne : ¬ (rs.countP (fun r => p.2 r ≠ MISSING) = rs.length) := by
        have hbridge : rs.countP (fun r => decide ¬(decide (p.2 r = MISSING) = true)) =
            rs.countP (fun r => p.2 r ≠ MISSING) := by
          apply List.countP_congr
          intro r hr
          simp
        rw [← hbridge]
        omega
      cases hb : check_stat_completeness [(p.1 (aggregate_batting rs)).occ]
          (aggregate_batting rs).games.occ
      case false => rfl
      case true => exact absurd (hflag.mp hb) hne
    case right =>
      rw [agg_field_sum p hp rs, sum_filter_nonneg_eq_ne_missing]
      intro v hv
      rcases List.mem_map.mp hv with ⟨r, hr, rfl⟩
      exact hwf r hr

/-- C2 witness: a two-game window for hits with values 2 and MISSING. -/
theorem stat_completeness_characterization_witness :
    check_stat_completeness
      [(BattingAgg.hits (aggregate_batting
          [⟨4, 0, 2, 0, 0, 0, 0, 0, 0, 0, 0, 0, 0, 0, 0, 0, 0⟩,
           ⟨4, 0, MISSING, 0, 0, 0, 0, 0, 0, 0, 0, 0, 0, 0, 0, 0, 0⟩])).occ]
      (aggregate_batting
          [⟨4, 0, 2, 0, 0, 0, 0, 0, 0, 0, 0, 0, 0, 0, 0, 0, 0⟩,
           ⟨4, 0, MISSING, 0, 0, 0, 0, 0, 0, 0, 0, 0, 0, 0, 0, 0, 0⟩]).games.occ = false
    ∧ (BattingAgg.hits (aggregate_batting
          [⟨4, 0, 2, 0, 0, 0, 0, 0, 0, 0, 0, 0, 0, 0, 0, 0, 0⟩,
           ⟨4, 0, MISSING, 0, 0, 0, 0, 0, 0, 0, 0, 0, 0, 0, 0, 0, 0⟩])).sum =
        ((([⟨4, 0, 2, 0, 0, 0, 0, 0, 0, 0, 0, 0, 0, 0, 0, 0, 0⟩,
            ⟨4, 0, MISSING, 0, 0, 0, 0, 0, 0, 0, 0, 0, 0, 0, 0, 0, 0⟩] :
              List BattingRecord).map
            (fun r => BattingRecord.hits r)).filter (fun v => v ≠ MISSING)).sum :=
  (stat_completeness_characterization
      [⟨4, 0, 2, 0, 0, 0, 0, 0, 0, 0, 0, 0, 0, 0, 0, 0, 0⟩,
       ⟨4, 0, MISSING, 0, 0, 0, 0, 0, 0, 0, 0, 0, 0, 0, 0, 0, 0⟩]
      (BattingAgg.hits, BattingRecord.hits)
      (by simp [battingPairs])
      (by intro r hr; simp [MISSING] at hr ⊢; rcases hr with rfl | rfl <;> simp)).2
    (by decide)

theorem agg_field_sum_complete (p : (BattingAgg → StatCell) × (BattingRecord → Int))
    (hp : p ∈ battingPairs) (rs : List BattingRecord)
    (hall : ∀ r ∈ rs, 0 ≤ p.2 r) :
    (p.1 (aggregate_batting rs)).sum = (rs.map p.2).sum := by
  rw [agg_field_sum p hp rs, List.filter_eq_self.mpr]
  intro v hv
  rcases List.mem_map.mp hv with ⟨r, hr, rfl⟩
  simpa using hall r hr

theorem mem_battingPairs_ab :
    ((BattingAgg.ab, BattingRecord.ab) :
      (BattingAgg → StatCell) × (BattingRecord → Int)) ∈ battingPairs := by
  unfold battingPairs
  exact List.mem_cons_self _ _

theorem mem_battingPairs_hits :
    ((BattingAgg.hits, BattingRecord.hits) :
      (BattingAgg → StatCell) × (BattingRecord → Int)) ∈ battingPairs := by
  unfold battingPairs
  exact List.mem_cons_of_mem _ (List.mem_cons_of_mem _ (List.mem_cons_self _ _))

theorem mem_battingPairs_sf :
    ((BattingAgg.sf, BattingRecord.sf) :
      (BattingAgg → StatCell) × (BattingRecord → Int)) ∈ battingPairs := by
  simp [battingPairs]

theorem mem_battingPairs_hbp :
    ((BattingAgg.hbp, BattingRecord.hbp) :
      (BattingAgg → StatCell) × (BattingRecord → Int)) ∈ battingPairs := by
  simp [battingPairs]

theorem mem_battingPairs_bb :
    ((BattingAgg.bb, BattingRecord.bb) :
      (BattingAgg → StatCell) × (BattingRecord → Int)) ∈ battingPairs := by
  simp [battingPairs]

/-- C8: the OBP branch computes a value iff at-bats, hits, walks and
hit-by-pitch are all complete for the window; the computed pair is
(hits+walks+HBP, ab+hits+walks+HBP+sf) where the sf term is the summed
sacrifice flies when that stat is complete and the literal 0 when
sacrifice flies alone are incomplete. -/
theorem obp_characterization (rs : List BattingRecord)
    (hwf : ∀ r ∈ rs,
      (r.ab = MISSING ∨ 0 ≤ r.ab) ∧ (r.hits = MISSING ∨ 0 ≤ r.hits) ∧
      (r.bb = MISSING ∨ 0 ≤ r.bb) ∧ (r.hbp = MISSING ∨ 0 ≤ r.hbp) ∧
      (r.sf = MISSING ∨ 0 ≤ r.sf)) :
    ((calc_OBP (aggregate_batting rs)).isSome = true ↔
      ∀ r ∈ rs, r.ab ≠ MISSING ∧ r.hits ≠ MISSING ∧ r.bb ≠ MISSING ∧ r.hbp ≠ MISSING)
    ∧ ((∀ r ∈ rs, r.ab ≠ MISSING ∧ r.hits ≠ MISSING ∧ r.bb ≠ MISSING ∧ r.hbp ≠ MISSING) →
        ((∀ r ∈ rs, r.sf ≠ MISSING) →
          calc_OBP (aggregate_batting rs) = some
            ((rs.map BattingRecord.hits).sum + (rs.map BattingRecord.bb).sum +
              (rs.map BattingRecord.hbp).sum,
             (rs.map BattingRecord.ab).sum + (rs.map BattingRecord.hits).sum +
              (rs.map BattingRecord.bb).sum + (rs.map BattingRecord.hbp).sum +
              (rs.map BattingRecord.sf).sum))
        ∧ ((∃ r ∈ rs, r.sf = MISSING) →
          calc_OBP (aggregate_batting rs) = some
            ((rs.map BattingRecord.hits).sum + (rs.map BattingRecord.bb).sum +
              (rs.map BattingRecord.hbp).sum,
             (rs.map BattingRecord.ab).sum + (rs.map BattingRecord.hits).sum +
              (rs.map BattingRecord.bb).sum + (rs.map BattingRecord.hbp).sum + 0))) := by
  have hwf_ab : ∀ r ∈ rs, r.ab = MISSING ∨ 0 ≤ r.ab := fun r hr => (hwf r hr).1
  have hwf_hits : ∀ r ∈ rs, r.hits = MISSING ∨ 0 ≤ r.hits := fun r hr => (hwf r hr).2.1
  have hwf_bb : ∀ r ∈ rs, r.bb = MISSING ∨ 0 ≤ r.bb := fun r hr => (hwf r hr).2.2.1
  have hwf_hbp : ∀ r ∈ rs, r.hbp = MISSING ∨ 0 ≤ r.hbp := fun r hr => (hwf r hr).2.2.2.1
  have hwf_sf : ∀ r ∈ rs, r.sf = MISSING ∨ 0 ≤ r.sf := fun r hr => (hwf r hr).2.2.2.2
  have hgames := games_occ_aggregate rs
  have hab : (aggregate_batting rs).ab.occ = rs.countP (fun r => 0 ≤ r.ab) :=
    agg_field_occ _ mem_battingPairs_ab rs
  have hhits : (aggregate_batting rs).hits.occ = rs.countP (fun r => 0 ≤ r.hits) :=
    agg_field_occ _ mem_battingPairs_hits rs
  have hbb : (aggregate_batting rs).bb.occ = rs.countP (fun r => 0 ≤ r.bb) :=
    agg_field_occ _ mem_battingPairs_bb rs
  have hhbp : (aggregate_batting rs).hbp.occ = rs.countP (fun r => 0 ≤ r.hbp) :=
    agg_field_occ _ mem_battingPairs_hbp rs
  have hsf : (aggregate_batting rs).sf.occ = rs.countP (fun r => 0 ≤ r.sf) :=
    agg_field_occ _ mem_battingPairs_sf rs
  have hiff_ab : ((aggregate_batting rs).ab.occ = (aggregate_batting rs).games.occ) ↔
      (∀ r ∈ rs, r.ab ≠ MISSING) := by
    rw [hab, hgames]
    exact countP_nonneg_eq_length_iff rs _ hwf_ab
  have hiff_hits : ((aggregate_batting rs).hits.occ = (aggregate_batting rs).games.occ) ↔
      (∀ r ∈ rs, r.hits ≠ MISSING) := by
    rw [hhits, hgames]
    exact countP_nonneg_eq_length_iff rs _ hwf_hits
  have hiff_bb : ((aggregate_batting rs).bb.occ = (aggregate_batting rs).games.occ) ↔
      (∀ r ∈ rs, r.bb ≠ MISSING) := by
    rw [hbb, hgames]
    exact countP_nonneg_eq_length_iff rs _ hwf_bb
  have hiff_hbp : ((aggregate_batting rs).hbp.occ = (aggregate_batting rs).games.occ) ↔
      (∀ r ∈ rs, r.hbp ≠ MISSING) := by
    rw [hhbp, hgames]
    exact countP_nonneg_eq_length_iff rs _ hwf_hbp
  have hforall : ((∀ r ∈ rs, r.ab ≠ MISSING) ∧ (∀ r ∈ rs, r.hits ≠ MISSING) ∧
      (∀ r ∈ rs, r.bb ≠ MISSING) ∧ (∀ r ∈ rs, r.hbp ≠ MISSING)) ↔
      (∀ r ∈ rs, r.ab ≠ MISSING ∧ r.hits ≠ MISSING ∧ r.bb ≠ MISSING ∧ r.hbp ≠ MISSING) := by
    constructor
    case mp =>
      rintro ⟨h1, h2, h3, h4⟩ r hr
      exact ⟨h1 r hr, h2 r hr, h3 r hr, h4 r hr⟩
    case mpr =>
      intro h
      exact ⟨fun r hr => (h r hr).1, fun r hr => (h r hr).2.1,
        fun r hr => (h r hr).2.2.1, fun r hr => (h r hr).2.2.2⟩
  have hgate : (check_stat_completeness
      [(aggregate_batting rs).ab.occ, (aggregate_batting rs).hits.occ,
        (aggregate_batting rs).bb.occ, (aggregate_batting rs).hbp.occ]
      (aggregate_batting rs).games.occ = true) ↔
      (∀ r ∈ rs, r.ab ≠ MISSING ∧ r.hits ≠ MISSING ∧ r.bb ≠ MISSING ∧ r.hbp ≠ MISSING) := by
    rw [check_stat_completeness_iff, ← hforall]
    simp only [List.forall_mem_cons]
    rw [hiff_ab, hiff_hits, hiff_bb, hiff_hbp]
    simp
  constructor
  case left =>
    unfold calc_OBP
    split
    case isTrue hg => simpa using hgate.mp hg
    case isFalse hg =>
      simp only [Option.isSome_none, Bool.false_eq_true, false_iff]
      intro hb
      exact hg (hgate.mpr hb)
  case right =>
    intro h4
    have hg : check_stat_completeness
        [(aggregate_batting rs).ab.occ, (aggregate_batting rs).hits.occ,
          (aggregate_batting rs).bb.occ, (aggregate_batting rs).hbp.occ]
        (aggregate_batting rs).games.occ = true := hgate.mpr h4
    have hnn : ∀ r ∈ rs, 0 ≤ r.ab ∧ 0 ≤ r.hits ∧ 0 ≤ r.bb ∧ 0 ≤ r.hbp := by
      intro r hr
      have hw := hwf r hr
      have hm := h4 r hr
      refine ⟨?_, ?_, ?_, ?_⟩
      case refine_1 => rcases hw.1 with h | h
                       case inl => exact absurd h hm.1
                       case inr => exact h
      case refine_2 => rcases hw.2.1 with h | h
                       case inl => exact absurd h hm.2.1
                       case inr => exact h
      case refine_3 => rcases hw.2.2.1 with h | h
                       case inl => exact absurd h hm.2.2.1
                       case inr => exact h
      case refine_4 => rcases hw.2.2.2.1 with h | h
                       case inl => exact absurd h hm.2.2.2
                       case inr => exact h
    have hsum_ab : (aggregate_batting rs).ab.sum = (rs.map BattingRecord.ab).sum :=
      agg_field_sum_complete _ mem_battingPairs_ab rs (fun r hr => (hnn r hr).1)
    have hsum_hits : (aggregate_batting rs).hits.sum = (rs.map BattingRecord.hits).sum :=
      agg_field_sum_complete _ mem_battingPairs_hits rs (fun r hr => (hnn r hr).2.1)
    have hsum_bb : (aggregate_batting rs).bb.sum = (rs.map BattingRecord.bb).sum :=
      agg_field_sum_complete _ mem_battingPairs_bb rs (fun r hr => (hnn r hr).2.2.1)
    have hsum_hbp : (aggregate_batting rs).hbp.sum = (rs.map BattingRecord.hbp).sum :=
      agg_field_sum_complete _ mem_battingPairs_hbp rs (fun r hr => (hnn r hr).2.2.2)
    constructor
    case left =>
      intro hsfall
      have hsfnn : ∀ r ∈ rs, 0 ≤ r.sf := by
        intro r hr
        rcases hwf_sf r hr with h | h
        case inl => exact absurd h (hsfall r hr)
        case inr => exact h
      have hsf_occ : (aggregate_batting rs).sf.occ = (aggregate_batting rs).games.occ := by
        rw [hsf, hgames]
        exact (countP_nonneg_eq_length_iff rs _ hwf_sf).mpr hsfall
      have hsf_adj : sf_adjusted (aggregate_batting rs) = (rs.map BattingRecord.sf).sum := by
        unfold sf_adjusted
        rw [if_neg (fun hne => hne hsf_occ)]
        exact agg_field_sum_complete _ mem_battingPairs_sf rs hsfnn
      unfold calc_OBP
      rw [if_pos hg, hsum_ab, hsum_hits, hsum_bb, hsum_hbp, hsf_adj]
    case right =>
      intro hex
      have hsf_neq : (aggregate_batting rs).sf.occ ≠ (aggregate_batting rs).games.occ := by
        rw [hsf, hgames]
        intro heq
        have hall := (countP_nonneg_eq_length_iff rs _ hwf_sf).mp heq
        rcases hex with ⟨r, hr, hm⟩
        exact hall r hr hm
      have hsf_adj : sf_adjusted (aggregate_batting rs) = 0 := by
        unfold sf_adjusted
        rw [if_pos hsf_neq]
      unfold calc_OBP
      rw [if_pos hg, hsum_ab, hsum_hits, hsum_bb, hsum_hbp, hsf_adj]

/-- C8 witness: a two-game window with every gating stat present and one
game missing sacrifice flies: OBP is computed with the sf term 0. -/
theorem obp_characterization_witness :
    calc_OBP (aggregate_batting
      [⟨4, 0, 1, 0, 0, 0, 0, 0, 0, 0, 0, 0, 0, 0, 0, 0, 0⟩,
       ⟨3, 0, 2, 0, 0, 0, 0, 0, MISSING, 0, 0, 0, 0, 0, 0, 0, 0⟩]) = some
      ((([⟨4, 0, 1, 0, 0, 0, 0, 0, 0, 0, 0, 0, 0, 0, 0, 0, 0⟩,
          ⟨3, 0, 2, 0, 0, 0, 0, 0, MISSING, 0, 0, 0, 0, 0, 0, 0, 0⟩] :
            List BattingRecord).map BattingRecord.hits).sum +
        (([⟨4, 0, 1, 0, 0, 0, 0, 0, 0, 0, 0, 0, 0, 0, 0, 0, 0⟩,
          ⟨3, 0, 2, 0, 0, 0, 0, 0, MISSING, 0, 0, 0, 0, 0, 0, 0, 0⟩] :
            List BattingRecord).map BattingRecord.bb).sum +
        (([⟨4, 0, 1, 0, 0, 0, 0, 0, 0, 0, 0, 0, 0, 0, 0, 0, 0⟩,
          ⟨3, 0, 2, 0, 0, 0, 0, 0, MISSING, 0, 0, 0, 0, 0, 0, 0, 0⟩] :
            List BattingRecord).map BattingRecord.hbp).sum,
       (([⟨4, 0, 1, 0, 0, 0, 0, 0, 0, 0, 0, 0, 0, 0, 0, 0, 0⟩,
          ⟨3, 0, 2, 0, 0, 0, 0, 0, MISSING, 0, 0, 0, 0, 0, 0, 0, 0⟩] :
            List BattingRecord).map BattingRecord.ab).sum +
        (([⟨4, 0, 1, 0, 0, 0, 0, 0, 0, 0, 0, 0, 0, 0, 0, 0, 0⟩,
          ⟨3, 0, 2, 0, 0, 0, 0, 0, MISSING, 0, 0, 0, 0, 0, 0, 0, 0⟩] :
            List BattingRecord).map BattingRecord.hits).sum +
        (([⟨4, 0, 1, 0, 0, 0, 0, 0, 0, 0, 0, 0, 0, 0, 0, 0, 0⟩,
          ⟨3, 0, 2, 0, 0, 0, 0, 0, MISSING, 0, 0, 0, 0, 0, 0, 0, 0⟩] :
            List BattingRecord).map BattingRecord.bb).sum +
        (([⟨4, 0, 1, 0, 0, 0, 0, 0, 0, 0, 0, 0, 0, 0, 0, 0, 0⟩,
          ⟨3, 0, 2, 0, 0, 0, 0, 0, MISSING, 0, 0, 0, 0, 0, 0, 0, 0⟩] :
            List BattingRecord).map BattingRecord.hbp).sum + 0) :=
  ((obp_characterization
      [⟨4, 0, 1, 0, 0, 0, 0, 0, 0, 0, 0, 0, 0, 0, 0, 0, 0⟩,
       ⟨3, 0, 2, 0, 0, 0, 0, 0, MISSING, 0, 0, 0, 0, 0, 0, 0, 0⟩]
      (by decide)).2 (by decide)).2
    ⟨⟨3, 0, 2, 0, 0, 0, 0, 0, MISSING, 0, 0, 0, 0, 0, 0, 0, 0⟩, by simp, rfl⟩

/-- C9: every ratio statistic of the aggregator is computed through the
divide-by-zero guard of get_pct_as_string, so a zero denominator yields
the literal 0 and no exception; win-loss percentage is computed from the
win and loss sums alone (never completeness-gated) and is 0 when
wins + losses is 0. -/
theorem division_by_zero_yields_zero :
    (∀ q : ℚ, get_pct q 0 = 0)
    ∧ (∀ a : PitchingAgg, (a.games_won.sum + a.games_lost.sum : Int) = 0 →
        calc_WLPCT a = 0)
    ∧ (∀ a b : PitchingAgg, a.games_won.sum = b.games_won.sum →
        a.games_lost.sum = b.games_lost.sum → calc_WLPCT a = calc_WLPCT b)
    ∧ (∀ (a : BattingAgg) (q : ℚ), calc_BA a = some q → a.ab.sum = 0 → q = 0)
    ∧ (∀ (a : BattingAgg) (q : ℚ), calc_SLG a = some q → a.ab.sum = 0 → q = 0)
    ∧ (∀ (a : BattingAgg) (q : ℚ), calc_OBP_value a = some q →
        a.ab.sum + a.hits.sum + a.bb.sum + a.hbp.sum + sf_adjusted a = 0 → q = 0)
    ∧ (∀ (a : PitchingAgg) (q : ℚ), calc_ERA a = some q → a.outs.sum = 0 → q = 0)
    ∧ (∀ (a : PitchingAgg) (q : ℚ), calc_WHIP a = some q → a.outs.sum = 0 → q = 0)
    ∧ (∀ (a : PitchingAgg) (q : ℚ), calc_H9 a = some q → a.outs.sum = 0 → q = 0)
    ∧ (∀ (a : PitchingAgg) (q : ℚ), calc_HR9 a = some q → a.outs.sum = 0 → q = 0)
    ∧ (∀ (a : PitchingAgg) (q : ℚ), calc_BB9 a = some q → a.outs.sum = 0 → q = 0)
    ∧ (∀ (a : PitchingAgg) (q : ℚ), calc_SO9 a = some q → a.outs.sum = 0 → q = 0)
    ∧ (∀ (a : PitchingAgg) (q : ℚ), calc_SOW a = some q → a.walks.sum = 0 → q = 0) := by
  have hzero : ∀ q : ℚ, get_pct q 0 = 0 := by
    intro q
    unfold get_pct
    simp
  have hip : ∀ n : Int, n = 0 → get_ip_as_float n = 0 := by
    intro n hn
    unfold get_ip_as_float
    rw [hn]
    simp
  refine ⟨hzero, ?_, ?_, ?_, ?_, ?_, ?_, ?_, ?_, ?_, ?_, ?_, ?_⟩
  case refine_1 =>
    intro a h
    unfold calc_WLPCT
    have hc : ((a.games_won.sum + a.games_lost.sum : Int) : ℚ) = 0 := by
      exact_mod_cast h
    rw [hc]
    exact hzero _
  case refine_2 =>
    intro a b h1 h2
    unfold calc_WLPCT
    rw [h1, h2]
  case refine_3 =>
    intro a q hsome hz
    unfold calc_BA at hsome
    split at hsome
    case isTrue hg =>
      have hq : q = get_pct (a.hits.sum : ℚ) (a.ab.sum : ℚ) := (Option.some.inj hsome).symm
      have hc : ((a.ab.sum : Int) : ℚ) = 0 := by exact_mod_cast hz
      rw [hq, hc]
      exact hzero _
    case isFalse hg => cases hsome
  case refine_4 =>
    intro a q hsome hz
    unfold calc_SLG at hsome
    split at hsome
    case isTrue hg =>
      have hq := (Option.some.inj hsome).symm
      have hc : ((a.ab.sum : Int) : ℚ) = 0 := by exact_mod_cast hz
      rw [hq, hc]
      exact hzero _
    case isFalse hg => cases hsome
  case refine_5 =>
    intro a q hsome hz
    unfold calc_OBP_value calc_OBP at hsome
    split at hsome
    case isTrue hg =>
      have hq := (Option.some.inj hsome).symm
      have hc : ((a.ab.sum + a.hits.sum + a.bb.sum + a.hbp.sum + sf_adjusted a : Int) : ℚ)
          = 0 := by exact_mod_cast hz
      rw [hq]
      show get_pct _ ((a.ab.sum + a.hits.sum + a.bb.sum + a.hbp.sum + sf_adjusted a : Int) : ℚ) = 0
      rw [hc]
      exact hzero _
    case isFalse hg => exact Option.noConfusion hsome
  case refine_6 =>
    intro a q hsome hz
    unfold calc_ERA at hsome
    split at hsome
    case isTrue hg =>
      have hq := (Option.some.inj hsome).symm
      rw [hq, hip _ hz]
      exact hzero _
    case isFalse hg => cases hsome
  case refine_7 =>
    intro a q hsome hz
    unfold calc_WHIP at hsome
    split at hsome
    case isTrue hg =>
      have hq := (Option.some.inj hsome).symm
      rw [hq, hip _ hz]
      exact hzero _
    case isFalse hg => cases hsome
  case refine_8 =>
    intro a q hsome hz
    unfold calc_H9 at hsome
    split at hsome
    case isTrue hg =>
      have hq := (Option.some.inj hsome).symm
      rw [hq, hip _ hz]
      exact hzero _
    case isFalse hg => cases hsome
  case refine_9 =>
    intro a q hsome hz
    unfold calc_HR9 at hsome
    split at hsome
    case isTrue hg =>
      have hq := (Option.some.inj hsome).symm
      rw [hq, hip _ hz]
      exact hzero _
    case isFalse hg => cases hsome
  case refine_10 =>
    intro a q hsome hz
    unfold calc_BB9 at hsome
    split at hsome
    case isTrue hg =>
      have hq := (Option.some.inj hsome).symm
      rw [hq, hip _ hz]
      exact hzero _
    case isFalse hg => cases hsome
  case refine_11 =>
    intro a q hsome hz
    unfold calc_SO9 at hsome
    split at hsome
    case isTrue hg =>
      have hq := (Option.some.inj hsome).symm
      rw [hq, hip _ hz]
      exact hzero _
    case isFalse hg => cases hsome
  case refine_12 =>
    intro a q hsome hz
    unfold calc_SOW at hsome
    split at hsome
    case isTrue hg =>
      have hq := (Option.some.inj hsome).symm
      have hc : ((a.walks.sum : Int) : ℚ) = 0 := by exact_mod_cast hz
      rw [hq, hc]
      exact hzero _
    case isFalse hg => cases hsome

/-- C9 witness: the freshly cleared pitching aggregate has zero wins and
losses and WLPCT evaluates to the literal 0. -/
theorem division_by_zero_yields_zero_witness :
    calc_WLPCT clear_pitching_stats = 0 :=
  division_by_zero_yields_zero.2.1 clear_pitching_stats (by decide)

theorem cell_le_refl (c : StatCell) : cell_le c c := ⟨le_refl _, le_refl _⟩

/-- C10: after processing any window, the games counter equals the number
of lines processed; every counting-stat occurrence counter is bounded by
the games counter; each consumed line leaves every counter and sum
non-decreasing; and a MISSING value changes neither the counter nor the
sum of its stat. -/
theorem aggregation_monotonicity_invariants :
    (∀ rs : List BattingRecord, (aggregate_batting rs).games.occ = rs.length)
    ∧ (∀ rs : List PitchingRecord, (aggregate_pitching rs).games.occ = rs.length)
    ∧ (∀ (rs : List BattingRecord), ∀ p ∈ battingPairs,
        (p.1 (aggregate_batting rs)).occ ≤ (aggregate_batting rs).games.occ)
    ∧ (∀ (rs : List PitchingRecord), ∀ p ∈ pitchingPairs,
        (p.1 (aggregate_pitching rs)).occ ≤ (aggregate_pitching rs).games.occ)
    ∧ (∀ rs : List PitchingRecord,
        (aggregate_pitching rs).games_started.occ ≤ (aggregate_pitching rs).games.occ
        ∧ (aggregate_pitching rs).games_won.occ ≤ (aggregate_pitching rs).games.occ
        ∧ (aggregate_pitching rs).games_lost.occ ≤ (aggregate_pitching rs).games.occ)
    ∧ (∀ (a : BattingAgg) (r : BattingRecord),
        cell_le a.games (process_batting_game a r).games
        ∧ ∀ p ∈ battingPairs, cell_le (p.1 a) (p.1 (process_batting_game a r)))
    ∧ (∀ (a : PitchingAgg) (r : PitchingRecord),
        cell_le a.games (process_pitching_game a r).games
        ∧ cell_le a.games_started (process_pitching_game a r).games_started
        ∧ cell_le a.games_won (process_pitching_game a r).games_won
        ∧ cell_le a.games_lost (process_pitching_game a r).games_lost
        ∧ ∀ p ∈ pitchingPairs, cell_le (p.1 a) (p.1 (process_pitching_game a r)))
    ∧ (∀ (a : BattingAgg) (r : BattingRecord), ∀ p ∈ battingPairs,
        p.2 r = MISSING → p.1 (process_batting_game a r) = p.1 a)
    ∧ (∀ (a : PitchingAgg) (r : PitchingRecord), ∀ p ∈ pitchingPairs,
        p.2 r = MISSING → p.1 (process_pitching_game a r) = p.1 a) := by
  have hg_occ : ∀ (a : PitchingAgg) (r : PitchingRecord),
      ((process_pitching_game a r).games).occ = a.games.occ + 1 := by
    intro a r
    show (update_pitching_stat a.games 1).occ = a.games.occ + 1
    rw [update_pitching_eq_batting, occ_update_batting_stat]
    simp
  refine ⟨games_occ_aggregate, pitching_games_occ_aggregate, ?_, ?_, ?_, ?_, ?_, ?_, ?_⟩
  case refine_1 =>
    intro rs p hp
    rw [agg_field_occ p hp rs, games_occ_aggregate rs]
    exact List.countP_le_length _
  case refine_2 =>
    intro rs p hp
    rw [pitching_agg_field_occ p hp rs, pitching_games_occ_aggregate rs]
    exact List.countP_le_length _
  case refine_3 =>
    intro rs
    refine ⟨?_, ?_, ?_⟩
    case refine_1 =>
      apply occ_le_games_fold process_pitching_game PitchingAgg.games
        PitchingAgg.games_started hg_occ
      case a => exact Nat.le_refl 0
      intro a r
      show (if r.starting_pitcher then update_pitching_stat a.games_started 1
        else a.games_started).occ ≤ a.games_started.occ + 1
      split
      case isTrue h =>
        rw [update_pitching_eq_batting, occ_update_batting_stat]
        simp
      case isFalse h => exact Nat.le_succ _
    case refine_2 =>
      apply occ_le_games_fold process_pitching_game PitchingAgg.games
        PitchingAgg.games_won hg_occ
      case a => exact Nat.le_refl 0
      intro a r
      show (if r.winning_pitcher then update_pitching_stat a.games_won 1
        else a.games_won).occ ≤ a.games_won.occ + 1
      split
      case isTrue h =>
        rw [update_pitching_eq_batting, occ_update_batting_stat]
        simp
      case isFalse h => exact Nat.le_succ _
    case refine_3 =>
      apply occ_le_games_fold process_pitching_game PitchingAgg.games
        PitchingAgg.games_lost hg_occ
      case a => exact Nat.le_refl 0
      intro a r
      show (if r.losing_pitcher then update_pitching_stat a.games_lost 1
        else a.games_lost).occ ≤ a.games_lost.occ + 1
      split
      case isTrue h =>
        rw [update_pitching_eq_batting, occ_update_batting_stat]
        simp
      case isFalse h => exact Nat.le_succ _
  case refine_4 =>
    intro a r
    constructor
    case left => exact cell_le_update a.games 1
    case right =>
      intro p hp
      rw [battingPairs_step p hp a r]
      exact cell_le_update _ _
  case refine_5 =>
    intro a r
    refine ⟨cell_le_update a.games 1, ?_, ?_, ?_, ?_⟩
    case refine_1 =>
      show cell_le a.games_started
        (if r.starting_pitcher then update_pitching_stat a.games_started 1
          else a.games_started)
      split
      case isTrue h => exact cell_le_update _ _
      case isFalse h => exact cell_le_refl _
    case refine_2 =>
      show cell_le a.games_won
        (if r.winning_pitcher then update_pitching_stat a.games_won 1
          else a.games_won)
      split
      case isTrue h => exact cell_le_update _ _
      case isFalse h => exact cell_le_refl _
    case refine_3 =>
      show cell_le a.games_lost
        (if r.losing_pitcher then update_pitching_stat a.games_lost 1
          else a.games_lost)
      split
      case isTrue h => exact cell_le_update _ _
      case isFalse h => exact cell_le_refl _
    case refine_4 =>
      intro p hp
      rw [pitchingPairs_step p hp a r]
      exact cell_le_update _ _
  case refine_6 =>
    intro a r p hp hm
    rw [battingPairs_step p hp a r]
    exact update_batting_stat_missing _ _ hm
  case refine_7 =>
    intro a r p hp hm
    rw [pitchingPairs_step p hp a r]
    exact update_batting_stat_missing _ _ hm

/-- C10 witness: a MISSING at-bats value in a consumed line leaves the
at-bats cell of the aggregate unchanged. -/
theorem aggregation_monotonicity_invariants_witness :
    BattingAgg.ab (process_batting_game clear_batting_stats
      ⟨MISSING, 0, 0, 0, 0, 0, 0, 0, 0, 0, 0, 0, 0, 0, 0, 0, 0⟩) =
      BattingAgg.ab clear_batting_stats :=
  aggregation_monotonicity_invariants.2.2.2.2.2.2.2.1 clear_batting_stats
    ⟨MISSING, 0, 0, 0, 0, 0, 0, 0, 0, 0, 0, 0, 0, 0, 0, 0, 0⟩
    (BattingAgg.ab, BattingRecord.ab) (by simp [battingPairs]) rfl
